import Mathlib

-- Shallow embedding of src/src/python/app.py (a small Flask portfolio backend).
-- Python strings are modelled as lists of characters; Python dict-shaped
-- records become Lean structures; each route handler becomes a pure function
-- from the parsed on-disk data and the request parameters to a result value.

set_option maxRecDepth 4096

/-- A Python string, modelled as its list of characters. -/
abbrev Str := List Char

/-- Coerce a Lean string literal into the `Str` model. -/
def str (s : String) : Str := s.data

-- ### Identifier normalizer (app.py lines 75, 90, 121)
-- The source inlines `label.lower().replace(' & ', '-').replace(' ', '-')`
-- at three call sites; the spec names this expression `slugify`.

/-- Model of `str.lower()` (per-character, ASCII as in `Char.toLower`). -/
def pyLower (s : Str) : Str := s.map Char.toLower

/-- Model of `.replace(' & ', '-')`: replace each non-overlapping occurrence
of the three-character pattern, scanning left to right. -/
def replaceAmp : Str → Str
  | [] => []
  | [c] => [c]
  | [c, c2] => [c, c2]
  | c :: c2 :: c3 :: rest =>
    if c = ' ' ∧ c2 = '&' ∧ c3 = ' ' then '-' :: replaceAmp rest
    else c :: replaceAmp (c2 :: c3 :: rest)

/-- Model of `.replace(' ', '-')`: replace every space by a dash. -/
def replaceSpace (s : Str) : Str := s.map (fun c => if c = ' ' then '-' else c)

/-- `slugify(label)`: `label.lower().replace(' & ', '-').replace(' ', '-')`
(app.py lines 75, 90, 121). -/
def slugify (s : Str) : Str := replaceSpace (replaceAmp (pyLower s))

-- ### Project-id parsing helpers (app.py lines 109-117)

/-- Model of Python `s.split('-')` (split on every dash; empty pieces kept;
the empty string splits into one empty piece). -/
def splitOnDash : Str → List Str
  | [] => [[]]
  | c :: rest =>
    if c = '-' then [] :: splitOnDash rest
    else
      match splitOnDash rest with
      | [] => [[c]]
      | p :: ps => (c :: p) :: ps

/-- The code points CPython strips as surrounding whitespace in `int(s)`
(the `Py_UNICODE_ISSPACE` set: tab through carriage return, space, next
line, and the Unicode space separators; Unicode 14.0 / CPython 3.11). -/
def pySpaceCodes : List Nat :=
  [0x9, 0xa, 0xb, 0xc, 0xd, 0x20, 0x85, 0xa0, 0x1680, 0x2000, 0x2001, 0x2002, 0x2003,
   0x2004, 0x2005, 0x2006, 0x2007, 0x2008, 0x2009, 0x200a, 0x2028, 0x2029, 0x202f,
   0x205f, 0x3000]

/-- Is `c` whitespace for CPython's `int()`? -/
def pySpace (c : Char) : Bool := pySpaceCodes.contains c.toNat

/-- The first code point of each run of ten Unicode decimal digits
(category Nd, Unicode 14.0); every run maps the digit values 0 through 9
in order, and CPython's `int()` accepts exactly these as digits. -/
def pyDigitRangeStarts : List Nat :=
  [0x30, 0x660, 0x6f0, 0x7c0, 0x966, 0x9e6, 0xa66, 0xae6, 0xb66, 0xbe6, 0xc66, 0xce6,
   0xd66, 0xde6, 0xe50, 0xed0, 0xf20, 0x1040, 0x1090, 0x17e0, 0x1810, 0x1946, 0x19d0,
   0x1a80, 0x1a90, 0x1b50, 0x1bb0, 0x1c40, 0x1c50, 0xa620, 0xa8d0, 0xa900, 0xa9d0,
   0xa9f0, 0xaa50, 0xabf0, 0xff10, 0x104a0, 0x10d30, 0x11066, 0x110f0, 0x11136,
   0x111d0, 0x112f0, 0x11450, 0x114d0, 0x11650, 0x116c0, 0x11730, 0x118e0, 0x11950,
   0x11c50, 0x11d50, 0x11da0, 0x16a60, 0x16ac0, 0x16b50, 0x1d7ce, 0x1d7d8, 0x1d7e2,
   0x1d7ec, 0x1d7f6, 0x1e140, 0x1e2f0, 0x1e950, 0x1fbf0]

/-- The decimal value of `c` when it is a Unicode decimal digit, else `none`. -/
def pyDigitVal (c : Char) : Option Nat :=
  (pyDigitRangeStarts.find? (fun lo => lo ≤ c.toNat && c.toNat ≤ lo + 9)).map
    (fun lo => c.toNat - lo)

/-- Remove leading and trailing `int()` whitespace. -/
def stripPySpace (s : Str) : Str := ((s.dropWhile pySpace).reverse.dropWhile pySpace).reverse

/-- Consume the rest of a digit group after its first digit: each further
character is a digit, or a single underscore followed by a digit
(`int("1_0") = 10`, while `"_1"`, `"1_"` and `"1__1"` are rejected). -/
def pyDigitsTail (acc : Nat) : Str → Option Nat
  | [] => some acc
  | '_' :: rest =>
    (match rest with
     | [] => none
     | c :: rest2 =>
       match pyDigitVal c with
       | some d => pyDigitsTail (acc * 10 + d) rest2
       | none => none)
  | c :: rest =>
    match pyDigitVal c with
    | some d => pyDigitsTail (acc * 10 + d) rest
    | none => none

/-- Model of CPython `int(s)` (app.py line 115) on the dash-free pieces
produced by `split('-')`: strip surrounding whitespace, allow one optional
ASCII `'+'` sign, then require Unicode decimal digits with single
underscores between them.  `int()` would also accept an ASCII `'-'` sign
(and only then could the result be negative), but a piece of a `split('-')`
result never contains `'-'` (`splitOnDash_no_dash` below), so on every
string this function is applied to, a successful Python parse is exactly a
non-negative integer — which also makes the `0 <= project_index` half of
the source's range check (app.py line 124) automatic. -/
def pyParseNat (s : Str) : Option Nat :=
  let t := stripPySpace s
  let body := match t with
    | '+' :: rest => rest
    | _ => t
  match body with
  | [] => none
  | c :: rest =>
    match pyDigitVal c with
    | some d => pyDigitsTail d rest
    | none => none

/-- No piece of a `split('-')` result contains a dash. -/
lemma splitOnDash_no_dash : ∀ s : Str, ∀ p ∈ splitOnDash s, '-' ∉ p := by
  intro s
  induction s with
  | nil =>
    intro p hp
    simp [splitOnDash] at hp
    simp [hp]
  | cons c rest ih =>
    intro p hp
    by_cases hc : c = '-'
    · rw [splitOnDash, if_pos hc] at hp
      rcases List.mem_cons.mp hp with h1 | h1
      · simp [h1]
      · exact ih p h1
    · rw [splitOnDash, if_neg hc] at hp
      cases hsp : splitOnDash rest with
      | nil =>
        rw [hsp] at hp
        simp at hp
        simp [hp]
        exact fun he => hc he.symm
      | cons q qs =>
        rw [hsp] at hp
        rcases List.mem_cons.mp hp with h1 | h1
        · rw [h1]
          intro hm
          rcases List.mem_cons.mp hm with h2 | h2
          · exact hc h2.symm
          · exact ih q (hsp ▸ List.mem_cons_self q qs) h2
        · exact ih p (hsp ▸ List.mem_cons_of_mem q h1)

/-- Decimal rendering of a natural number, as used by `f"{category_id}-{i}"`. -/
def natToStr (n : Nat) : Str := (Nat.repr n).data

-- ### Data model (the parsed `projects.yaml` document and related records)

/-- One pair from a project's `industry_applications` list:
`{'industry': ..., 'application': ...}`. -/
structure IndustryApplication where
  industry : Str
  application : Str
deriving DecidableEq

/-- One project record from `projects.yaml`.  The three fields the handlers
touch are explicit (`Option` models presence of the dict key); all other
descriptive fields are carried opaquely in `extra`. -/
structure Project where
  id : Option Str := none
  industry_applications : Option (List IndustryApplication) := none
  capabilities : Option (List Str) := none
  extra : List (Str × Str) := []
deriving DecidableEq

/-- One category block: `{'category': <display name>, 'projects': [...]}`. -/
structure Category where
  category : Str
  projects : List Project
deriving DecidableEq

-- A parsed projects document is `projects_data.get('projects', [])`:
-- a list of categories.  `load_yaml_data` returns `{}` on any read or parse
-- error (app.py lines 10-16), and `{}.get('projects', [])` is `[]`, so a
-- loader failure is modelled by the empty category list.

/-- One entry of the `/api/projects` category listing
(`{id, name, projectCount}`, app.py lines 74-78). -/
structure CategoryInfo where
  id : Str
  name : Str
  projectCount : Nat
deriving DecidableEq

/-- Result of the `/api/projects/category/<category_id>` handler. -/
inductive CatProjResult where
  | success (category : Str) (projects : List Project)
  | failure (status : Nat) (error : Str)
deriving DecidableEq

/-- Result of the `/api/projects/<project_id>` handler. -/
inductive ProjResult where
  | success (p : Project)
  | failure (status : Nat) (error : Str)
deriving DecidableEq

-- ### GET /api/projects (app.py lines 67-82)

/-- `get_projects`: map each category to
`{id: slugified name, name: display name, projectCount: len(projects)}`. -/
def get_projects (data : List Category) : List CategoryInfo :=
  data.map (fun c =>
    { id := slugify c.category, name := c.category, projectCount := c.projects.length })

-- ### GET /api/projects/category/<category_id> (app.py lines 84-102)

/-- The `for i, project in enumerate(projects): project['id'] = f"{category_id}-{i}"`
loop (app.py lines 94-95), with `i` starting at the given counter. -/
def assignIds (cid : Str) : Nat → List Project → List Project
  | _, [] => []
  | i, p :: rest => { p with id := some (cid ++ '-' :: natToStr i) } :: assignIds cid (i + 1) rest

/-- `get_projects_by_category`: linear scan for the first category whose
slugified name equals `category_id`; on a match return the display name and
the projects with positional ids assigned; otherwise 404. -/
def get_projects_by_category (data : List Category) (category_id : Str) : CatProjResult :=
  match data with
  | [] => CatProjResult.failure 404 (str "Category not found")
  | c :: rest =>
    if slugify c.category = category_id then
      CatProjResult.success c.category (assignIds category_id 0 c.projects)
    else get_projects_by_category rest category_id

-- ### GET /api/projects/<project_id> (app.py lines 104-156)

/-- The fixed `industry_applications` default injected at app.py lines 130-143. -/
def defaultIndustryApplications : List IndustryApplication :=
  [ { industry := str "Financial Services",
      application := str "Enhances regulatory compliance while enabling innovation" },
    { industry := str "Technology Consulting",
      application := str "Demonstrates expertise in complex system integration" },
    { industry := str "Digital Transformation",
      application := str "Shows ability to reimagine processes with technology" } ]

/-- The fixed `capabilities` default injected at app.py lines 146-152. -/
def defaultCapabilities : List Str :=
  [ str "Strategic vision and planning",
    str "Technical implementation expertise",
    str "Cross-functional team leadership",
    str "Innovation and creative problem-solving" ]

/-- The mutations app.py lines 126-152 perform on the found project before
returning it: set `id` to the literal request id, then fill
`industry_applications` and `capabilities` with the fixed defaults when the
keys are absent. -/
def injectDefaults (pid : Str) (p : Project) : Project :=
  { p with
    id := some pid,
    industry_applications := some (match p.industry_applications with
      | none => defaultIndustryApplications
      | some xs => xs),
    capabilities := some (match p.capabilities with
      | none => defaultCapabilities
      | some cs => cs) }

/-- The scan loop of app.py lines 120-154: first category whose slugified
name equals `cid` AND whose project list has the index in range wins; a
matching category with the index out of range does NOT return, the loop
just continues; falling off the loop yields 404. -/
def findAndReturn (cid : Str) (idx : Nat) (pid : Str) : List Category → ProjResult
  | [] => ProjResult.failure 404 (str "Project not found")
  | c :: rest =>
    if slugify c.category = cid then
      match c.projects[idx]? with
      | some q => ProjResult.success (injectDefaults pid q)
      | none => findAndReturn cid idx pid rest
    else findAndReturn cid idx pid rest

/-- `get_project`: split the request id on dashes; fewer than two pieces is
a 400 "Invalid project ID"; a non-numeric second piece is a 400
"Invalid project index"; otherwise scan with the first piece as category
slug and the parsed second piece as index (app.py lines 104-156). -/
def get_project (data : List Category) (project_id : Str) : ProjResult :=
  match splitOnDash project_id with
  | p0 :: p1 :: _ =>
    (match pyParseNat p1 with
     | some idx => findAndReturn p0 idx project_id data
     | none => ProjResult.failure 400 (str "Invalid project index"))
  | _ => ProjResult.failure 400 (str "Invalid project ID")

-- ### GET /api/projects/industry-relevance/<industry_id> (app.py lines 158-194)

/-- One entry of the hardcoded relevance map. -/
structure RelevanceEntry where
  relevant_projects : List Str
  highlight_projects : List Str
deriving DecidableEq

/-- The `'custom'` entry of the hardcoded map (app.py lines 184-187). -/
def customEntry : RelevanceEntry :=
  { relevant_projects :=
      [ str "ai-technology-innovation-0", str "strategic-vision-systems-thinking-0",
        str "business-transformation-innovation-0", str "creative-conceptual-development-0" ],
    highlight_projects :=
      [ str "strategic-vision-systems-thinking-0", str "ai-technology-innovation-0" ] }

/-- The hardcoded `relevance_map` dict (app.py lines 163-188), as an
association list in source order. -/
def relevance_map : List (Str × RelevanceEntry) :=
  [ (str "financial-services",
     { relevant_projects :=
         [ str "ai-technology-innovation-0", str "ai-technology-innovation-1",
           str "business-transformation-innovation-2" ],
       highlight_projects := [ str "ai-technology-innovation-0" ] }),
    (str "tech-consulting",
     { relevant_projects :=
         [ str "ai-technology-innovation-1", str "business-transformation-innovation-0",
           str "business-transformation-innovation-2" ],
       highlight_projects := [ str "business-transformation-innovation-2" ] }),
    (str "ai-implementation",
     { relevant_projects :=
         [ str "ai-technology-innovation-0", str "ai-technology-innovation-1",
           str "ai-technology-innovation-2" ],
       highlight_projects := [ str "ai-technology-innovation-1" ] }),
    (str "digital-transformation",
     { relevant_projects :=
         [ str "strategic-vision-systems-thinking-1", str "business-transformation-innovation-0",
           str "business-transformation-innovation-1" ],
       highlight_projects := [ str "business-transformation-innovation-0" ] }),
    (str "startup-innovation",
     { relevant_projects :=
         [ str "business-transformation-innovation-1", str "creative-conceptual-development-0",
           str "creative-conceptual-development-1" ],
       highlight_projects := [ str "creative-conceptual-development-1" ] }),
    (str "custom", customEntry) ]

/-- The six keys of `relevance_map`, in source order. -/
def relevanceKeys : List Str := relevance_map.map Prod.fst

/-- `get_industry_project_relevance`: exact dict lookup, with the `'custom'`
entry as the fallback for unknown ids (app.py lines 190-194).  Total: it
never signals an error. -/
def get_industry_project_relevance (industry_id : Str) : RelevanceEntry :=
  match relevance_map.lookup industry_id with
  | some e => e
  | none => customEntry

-- ### GET /api/cv (app.py lines 18-28 and 50-53)

/-- Read and render the listed files in order, propagating the first file
error (the `open(...).read()` calls of app.py lines 24-25 have no handler). -/
def renderAll (markdownF : Str → Str) (readFile : Str → Except Str Str) :
    List Str → Except Str (List (Str × Str))
  | [] => Except.ok []
  | f :: rest =>
    match readFile f with
    | Except.error e => Except.error e
    | Except.ok content =>
      match renderAll markdownF readFile rest with
      | Except.error e => Except.error e
      | Except.ok acc => Except.ok ((f, markdownF content) :: acc)

/-- `load_cv_data` (app.py lines 18-28): list the CV directory, keep the
`.md` files, render each to HTML.  The directory listing (`os.listdir`) and
the file reads are effectful, so they are passed in as results; the body
installs NO exception handler, so any failure propagates to the caller
(`get_cv`, app.py lines 50-53, which does not handle it either). -/
def load_cv_data (markdownF : Str → Str) (listing : Except Str (List Str))
    (readFile : Str → Except Str Str) : Except Str (List (Str × Str)) :=
  match listing with
  | Except.error e => Except.error e
  | Except.ok files => renderAll markdownF readFile (files.filter (fun f => (str ".md").isSuffixOf f))

-- ### Concrete data used by the end-to-end claims

/-- First sample project (no explicit `capabilities` or ids). -/
def aiProj0 : Project := { extra := [(str "title", str "Project Zero")] }

/-- Second sample project. -/
def aiProj1 : Project := { extra := [(str "title", str "Project One")] }

/-- A projects document with the single category
`"AI & Technology Innovation"` holding two projects. -/
def aiData : List Category :=
  [ { category := str "AI & Technology Innovation", projects := [aiProj0, aiProj1] } ]

/-- A project that already carries a `capabilities` list. -/
def roboticsProjWithCaps : Project :=
  { capabilities := some [str "Existing capability"],
    extra := [(str "title", str "Arm")] }

/-- A single-word category (its slug has no dash, so `get_project` can
actually resolve its projects). -/
def roboticsData : List Category :=
  [ { category := str "Robotics", projects := [aiProj0, roboticsProjWithCaps] } ]

-- ### Helper lemmas about the identifier normalizer

lemma charToLower_idem (c : Char) : c.toLower.toLower = c.toLower := by
  by_cases h : c.toNat ≥ 65 ∧ c.toNat ≤ 90
  · have hc : c.toLower = Char.ofNat (c.toNat + 32) := by
      simp only [Char.toLower]
      rw [if_pos h]
    rw [hc]
    obtain ⟨h1, h2⟩ := h
    interval_cases c.toNat <;> decide
  · have hc : c.toLower = c := by
      simp only [Char.toLower]
      rw [if_neg h]
    rw [hc, hc]

lemma mem_replaceAmp : ∀ (s : Str), ∀ c ∈ replaceAmp s, c ∈ s ∨ c = '-' := by
  intro s
  induction s using replaceAmp.induct with
  | case1 => intro c hc; simp [replaceAmp] at hc
  | case2 d => intro c hc; simp [replaceAmp] at hc; simp [hc]
  | case3 d d2 => intro c hc; simp [replaceAmp] at hc; rcases hc with h | h <;> simp [h]
  | case4 d d2 d3 rest h ih =>
    intro c hc
    rw [replaceAmp, if_pos h] at hc
    rcases List.mem_cons.mp hc with h1 | h1
    · right; exact h1
    · rcases ih c h1 with h2 | h2
      · left; simp [h2]
      · right; exact h2
  | case5 d d2 d3 rest h ih =>
    intro c hc
    rw [replaceAmp, if_neg h] at hc
    rcases List.mem_cons.mp hc with h1 | h1
    · left; simp [h1]
    · rcases ih c h1 with h2 | h2
      · left; simp at h2 ⊢; tauto
      · right; exact h2

lemma replaceAmp_of_no_space (s : Str) (h : ∀ c ∈ s, c ≠ ' ') : replaceAmp s = s := by
  induction s using replaceAmp.induct with
  | case1 => rfl
  | case2 d => rfl
  | case3 d d2 => rfl
  | case4 d d2 d3 rest hcond ih =>
    exact absurd hcond.1 (h d (by simp))
  | case5 d d2 d3 rest hcond ih =>
    rw [replaceAmp, if_neg hcond, ih]
    intro c hc
    exact h c (List.mem_cons_of_mem d hc)

lemma replaceSpace_no_space (s : Str) : ∀ c ∈ replaceSpace s, c ≠ ' ' := by
  intro c hc
  rcases List.mem_map.mp hc with ⟨a, _, ha⟩
  by_cases hsp : a = ' '
  · rw [hsp] at ha; simp at ha; rw [← ha]; decide
  · rw [if_neg hsp] at ha; rw [← ha]; exact hsp

lemma replaceSpace_of_no_space (s : Str) (h : ∀ c ∈ s, c ≠ ' ') : replaceSpace s = s := by
  unfold replaceSpace
  have : ∀ c ∈ s, (if c = ' ' then '-' else c) = c := by
    intro c hc
    rw [if_neg (h c hc)]
  calc s.map (fun c => if c = ' ' then '-' else c) = s.map id := List.map_congr_left this
    _ = s := List.map_id s

lemma pyLower_of_fixed (s : Str) (h : ∀ c ∈ s, c.toLower = c) : pyLower s = s := by
  unfold pyLower
  calc s.map Char.toLower = s.map id := List.map_congr_left h
    _ = s := List.map_id s

lemma slugify_chars_fixed (s : Str) : ∀ c ∈ slugify s, c.toLower = c := by
  intro c hc
  unfold slugify at hc
  rcases List.mem_map.mp hc with ⟨a, ha, hfa⟩
  have hafix : a.toLower = a := by
    rcases mem_replaceAmp _ a ha with h1 | h1
    · rcases List.mem_map.mp h1 with ⟨b, _, hb⟩
      rw [← hb]
      exact charToLower_idem b
    · rw [h1]; decide
  by_cases hsp : a = ' '
  · rw [hsp] at hfa; simp at hfa; rw [← hfa]; decide
  · rw [if_neg hsp] at hfa; rw [← hfa]; exact hafix

lemma slugify_no_space (s : Str) : ∀ c ∈ slugify s, c ≠ ' ' :=
  replaceSpace_no_space (replaceAmp (pyLower s))

-- ### Helper lemmas about the project lookup scan

lemma injectDefaults_id (pid : Str) (q : Project) : (injectDefaults pid q).id = some pid := rfl

lemma injectDefaults_override (pid pidB : Str) (q : Project) :
    { injectDefaults pid q with id := some pidB } = injectDefaults pidB q := rfl

lemma findAndReturn_success_inv (cid : Str) (idx : Nat) (pid : Str) (p : Project) :
    ∀ d : List Category, findAndReturn cid idx pid d = ProjResult.success p →
      ∃ cat ∈ d, slugify cat.category = cid ∧
        ∃ q, cat.projects[idx]? = some q ∧ p = injectDefaults pid q := by
  intro d
  induction d with
  | nil => intro h; exact absurd h (by simp [findAndReturn])
  | cons c rest ih =>
    intro h
    simp only [findAndReturn] at h
    by_cases hm : slugify c.category = cid
    · rw [if_pos hm] at h
      cases hq : c.projects[idx]? with
      | some q =>
        rw [hq] at h
        refine ⟨c, List.mem_cons_self c rest, hm, q, hq, ?_⟩
        cases h
        rfl
      | none =>
        rw [hq] at h
        rcases ih h with ⟨cat, hmem, hslug, q, hgq, hp⟩
        exact ⟨cat, List.mem_cons_of_mem c hmem, hslug, q, hgq, hp⟩
    · rw [if_neg hm] at h
      rcases ih h with ⟨cat, hmem, hslug, q, hgq, hp⟩
      exact ⟨cat, List.mem_cons_of_mem c hmem, hslug, q, hgq, hp⟩

lemma findAndReturn_pid_invariance (cid : Str) (idx : Nat) (pid pidB : Str) :
    ∀ d : List Category,
      (∀ s e, findAndReturn cid idx pid d = ProjResult.failure s e ↔
        findAndReturn cid idx pidB d = ProjResult.failure s e) ∧
      (∀ p, findAndReturn cid idx pid d = ProjResult.success p →
        findAndReturn cid idx pidB d = ProjResult.success { p with id := some pidB }) := by
  intro d
  induction d with
  | nil =>
    constructor
    · intro s e; exact Iff.rfl
    · intro p h; exact absurd h (by simp [findAndReturn])
  | cons c rest ih =>
    by_cases hm : slugify c.category = cid
    · cases hq : c.projects[idx]? with
      | some q =>
        constructor
        · intro s e
          simp [findAndReturn, hm, hq]
        · intro p h
          simp only [findAndReturn, hm, if_true, eq_self_iff_true, hq] at h ⊢
          cases h
          exact congrArg ProjResult.success (injectDefaults_override cid pidB q ▸ rfl)
      | none =>
        constructor
        · intro s e
          simp only [findAndReturn, hm, if_true, eq_self_iff_true, hq]
          exact ih.1 s e
        · intro p h
          simp only [findAndReturn, hm, if_true, eq_self_iff_true, hq] at h ⊢
          exact ih.2 p h
    · constructor
      · intro s e
        simp only [findAndReturn, if_neg hm]
        exact ih.1 s e
      · intro p h
        simp only [findAndReturn, if_neg hm] at h ⊢
        exact ih.2 p h

-- ### Helper lemmas about positional id assignment

lemma assignIds_length (cid : Str) : ∀ (k : Nat) (ps : List Project),
    (assignIds cid k ps).length = ps.length := by
  intro k ps
  induction ps generalizing k with
  | nil => rfl
  | cons p rest ih => simp [assignIds, ih]

lemma assignIds_get? (cid : Str) : ∀ (ps : List Project) (k i : Nat),
    (assignIds cid k ps)[i]? =
      (ps[i]?).map (fun p => { p with id := some (cid ++ '-' :: natToStr (k + i)) }) := by
  intro ps
  induction ps with
  | nil => intro k i; simp [assignIds]
  | cons p rest ih =>
    intro k i
    cases i with
    | zero => simp [assignIds]
    | succ j =>
      simp only [assignIds, List.getElem?_cons_succ]
      rw [ih (k + 1) j]
      have : k + 1 + j = k + (j + 1) := by omega
      rw [this]

lemma get_projects_by_category_find (cid : Str) :
    ∀ d : List Category,
      (d.find? (fun c => slugify c.category == cid) = none →
        get_projects_by_category d cid = CatProjResult.failure 404 (str "Category not found")) ∧
      (∀ cat, d.find? (fun c => slugify c.category == cid) = some cat →
        get_projects_by_category d cid =
          CatProjResult.success cat.category (assignIds cid 0 cat.projects)) := by
  intro d
  induction d with
  | nil =>
    constructor
    · intro _; rfl
    · intro cat h; exact absurd h (by simp)
  | cons c rest ih =>
    by_cases hm : slugify c.category = cid
    · constructor
      · intro h
        rw [List.find?_cons_of_pos _ (by simpa using hm)] at h
        exact absurd h (by simp)
      · intro cat h
        rw [List.find?_cons_of_pos _ (by simpa using hm)] at h
        cases h
        simp only [get_projects_by_category]
        rw [if_pos hm]
    · constructor
      · intro h
        rw [List.find?_cons_of_neg _ (by simpa using hm)] at h
        simp only [get_projects_by_category]
        rw [if_neg hm]
        exact ih.1 h
      · intro cat h
        rw [List.find?_cons_of_neg _ (by simpa using hm)] at h
        simp only [get_projects_by_category]
        rw [if_neg hm]
        exact ih.2 cat h

-- ### Generic lookup lemma used by the relevance claims

lemma lookup_eq_none_of_not_mem {l : List (Str × RelevanceEntry)} {a : Str}
    (h : a ∉ l.map Prod.fst) : l.lookup a = none := by
  induction l with
  | nil => rfl
  | cons p rest ih =>
    simp only [List.map_cons, List.mem_cons, not_or] at h
    have hk : (a == p.1) = false := beq_eq_false_iff_ne.mpr h.1
    cases p with
    | mk k v =>
      simp only [List.lookup]
      rw [hk]
      exact ih h.2

-- ### Inversion of a successful project lookup

lemma get_project_success_inv (d : List Category) (pid : Str) (p : Project)
    (h : get_project d pid = ProjResult.success p) :
    ∃ p0 p1 rest idx, splitOnDash pid = p0 :: p1 :: rest ∧ pyParseNat p1 = some idx ∧
      findAndReturn p0 idx pid d = ProjResult.success p := by
  rcases hsp : splitOnDash pid with _ | ⟨p0, tl⟩
  · simp only [get_project, hsp] at h
    exact ProjResult.noConfusion h
  · rcases tl with _ | ⟨p1, rest⟩
    · simp only [get_project, hsp] at h
      exact ProjResult.noConfusion h
    · cases hpn : pyParseNat p1 with
      | none =>
        simp only [get_project, hsp, hpn] at h
        exact ProjResult.noConfusion h
      | some idx =>
        simp only [get_project, hsp, hpn] at h
        exact ⟨p0, p1, rest, idx, rfl, hpn, h⟩

-- ### The claims

/-- C4: `slugify` (lowercase, replace `" & "` by `"-"`, replace remaining
spaces by `"-"`) is idempotent: applying it twice equals applying it once,
for every input string. -/
theorem slugify_idempotent (s : Str) : slugify (slugify s) = slugify s := by
  have h1 : ∀ c ∈ slugify s, c ≠ ' ' := slugify_no_space s
  have h2 : ∀ c ∈ slugify s, c.toLower = c := slugify_chars_fixed s
  calc slugify (slugify s) = replaceSpace (replaceAmp (pyLower (slugify s))) := rfl
    _ = replaceSpace (replaceAmp (slugify s)) := by rw [pyLower_of_fixed _ h2]
    _ = replaceSpace (slugify s) := by rw [replaceAmp_of_no_space _ h1]
    _ = slugify s := replaceSpace_of_no_space _ h1

/-- C9: `slugify("AI & Technology Innovation")` equals
`"ai-technology-innovation"`. -/
theorem slugify_ai_label :
    slugify (str "AI & Technology Innovation") = str "ai-technology-innovation" := by decide

/-- C1: evaluation of the code on a projects document with one category
`"AI & Technology Innovation"` holding two projects.  The category listing
is as the claim says, and the category endpoint even mints the id
`"ai-technology-innovation-1"`, but `get_project` on that very id returns
400 "Invalid project index" (splitting on `-` makes the slug `"ai"` and the
index `"technology"`), not the second project. -/
theorem end_to_end_eval :
    get_projects aiData =
      [{ id := str "ai-technology-innovation", name := str "AI & Technology Innovation",
         projectCount := 2 }] ∧
    get_projects_by_category aiData (str "ai-technology-innovation") =
      CatProjResult.success (str "AI & Technology Innovation")
        [{ aiProj0 with id := some (str "ai-technology-innovation-0") },
         { aiProj1 with id := some (str "ai-technology-innovation-1") }] ∧
    get_project aiData (str "ai-technology-innovation-1") =
      ProjResult.failure 400 (str "Invalid project index") := by decide

/-- C3: `get_projects_by_category` returns, for the first category whose
slug matches, the display name and a list of the same length in which the
project at position `i` is the original project with its id overwritten by
`"{categorySlug}-{i}"`; when no category matches it signals
404 "Category not found". -/
theorem getCategoryProjects_spec (d : List Category) (cid : Str) :
    (d.find? (fun c => slugify c.category == cid) = none →
      get_projects_by_category d cid = CatProjResult.failure 404 (str "Category not found")) ∧
    (∀ cat, d.find? (fun c => slugify c.category == cid) = some cat →
      ∃ ps, get_projects_by_category d cid = CatProjResult.success cat.category ps ∧
        ps.length = cat.projects.length ∧
        ∀ (i : Nat) (q : Project), cat.projects[i]? = some q →
          ps[i]? = some { q with id := some (cid ++ '-' :: natToStr i) }) := by
  refine ⟨(get_projects_by_category_find cid d).1, ?_⟩
  intro cat hfind
  refine ⟨assignIds cid 0 cat.projects, (get_projects_by_category_find cid d).2 cat hfind,
    assignIds_length cid 0 cat.projects, ?_⟩
  intro i q hq
  rw [assignIds_get? cid cat.projects 0 i, hq]
  simp

/-- C3 witness: the sample two-project category. -/
theorem getCategoryProjects_spec_witness :
    ∃ ps, get_projects_by_category aiData (str "ai-technology-innovation") =
        CatProjResult.success (str "AI & Technology Innovation") ps ∧
      ps.length = 2 ∧
      ∀ (i : Nat) (q : Project), [aiProj0, aiProj1][i]? = some q →
        ps[i]? = some { q with id := some ((str "ai-technology-innovation") ++ '-' :: natToStr i) } :=
  (getCategoryProjects_spec aiData (str "ai-technology-innovation")).2
    { category := str "AI & Technology Innovation", projects := [aiProj0, aiProj1] } (by decide)

/-- C5: `get_industry_project_relevance` is total (its type returns an
entry for every id), returns the matching table entry for a known key, and
falls back to the `custom` entry for any unknown id; in particular
`"unknown-industry"` gets the `custom` entry. -/
theorem getRelevance_fallback (industryId : Str) :
    (industryId ∉ relevanceKeys →
      get_industry_project_relevance industryId = get_industry_project_relevance (str "custom")) ∧
    get_industry_project_relevance (str "unknown-industry") =
      get_industry_project_relevance (str "custom") ∧
    (∀ e, relevance_map.lookup industryId = some e →
      get_industry_project_relevance industryId = e) := by
  refine ⟨?_, by decide, ?_⟩
  · intro hmem
    have hl : relevance_map.lookup industryId = none := lookup_eq_none_of_not_mem hmem
    simp only [get_industry_project_relevance, hl]
    decide
  · intro e he
    simp only [get_industry_project_relevance, he]

/-- C5 witness: an id outside the six keys falls back to `custom`. -/
theorem getRelevance_fallback_witness :
    get_industry_project_relevance (str "no-such-industry") =
      get_industry_project_relevance (str "custom") :=
  (getRelevance_fallback (str "no-such-industry")).1 (by decide)

/-- C6: a successful `get_project` returns a stored project whose
`capabilities`, when absent, are set to exactly the four fixed default
strings, and, when present, are returned unchanged. -/
theorem getProject_capabilities (d : List Category) (pid : Str) (p : Project)
    (h : get_project d pid = ProjResult.success p) :
    ∃ cat ∈ d, ∃ i : Nat, ∃ q, cat.projects[i]? = some q ∧
      (q.capabilities = none → p.capabilities = some defaultCapabilities) ∧
      (∀ cs, q.capabilities = some cs → p.capabilities = some cs) := by
  rcases get_project_success_inv d pid p h with ⟨p0, p1, rest, idx, hsp, hpn, hf⟩
  rcases findAndReturn_success_inv p0 idx pid p d hf with ⟨cat, hmem, hslug, q, hq, hpq⟩
  refine ⟨cat, hmem, idx, q, hq, ?_, ?_⟩
  · intro hnone
    rw [hpq]
    simp [injectDefaults, hnone]
  · intro cs hcs
    rw [hpq]
    simp [injectDefaults, hcs]

/-- C6 witness: a resolvable single-word category whose first project lacks
`capabilities`. -/
theorem getProject_capabilities_witness :
    ∃ cat ∈ roboticsData, ∃ i : Nat, ∃ q, cat.projects[i]? = some q ∧
      (q.capabilities = none →
        (injectDefaults (str "robotics-0") aiProj0).capabilities = some defaultCapabilities) ∧
      (∀ cs, q.capabilities = some cs →
        (injectDefaults (str "robotics-0") aiProj0).capabilities = some cs) :=
  getProject_capabilities roboticsData (str "robotics-0")
    (injectDefaults (str "robotics-0") aiProj0) (by decide)

/-- C8: when a project id splits into more than two parts, `get_project`
consults only the first two: its outcome agrees with the outcome on any id
with the same first two parts, except that on success the returned id is
the literal request id. -/
theorem getProject_ignores_trailing_parts (d : List Category) (pid pidB p0 p1 : Str)
    (rest restB : List Str)
    (h : splitOnDash pid = p0 :: p1 :: rest) (hB : splitOnDash pidB = p0 :: p1 :: restB) :
    (∀ s e, get_project d pid = ProjResult.failure s e ↔
      get_project d pidB = ProjResult.failure s e) ∧
    (∀ p, get_project d pid = ProjResult.success p →
      p.id = some pid ∧ get_project d pidB = ProjResult.success { p with id := some pidB }) := by
  cases hpn : pyParseNat p1 with
  | none =>
    constructor
    · intro s e
      simp only [get_project, h, hB, hpn]
    · intro p hp
      simp only [get_project, h, hpn] at hp
      exact ProjResult.noConfusion hp
  | some idx =>
    constructor
    · intro s e
      simp only [get_project, h, hB, hpn]
      exact (findAndReturn_pid_invariance p0 idx pid pidB d).1 s e
    · intro p hp
      simp only [get_project, h, hB, hpn] at hp ⊢
      constructor
      · rcases findAndReturn_success_inv p0 idx pid p d hp with ⟨cat, _, _, q, _, hpq⟩
        rw [hpq]
        rfl
      · exact (findAndReturn_pid_invariance p0 idx pid pidB d).2 p hp

/-- C8 witness: `"robotics-0-extra"` behaves exactly like `"robotics-0"`,
with the literal id written into the successful result. -/
theorem getProject_ignores_trailing_parts_witness :
    (∀ s e, get_project roboticsData (str "robotics-0-extra") = ProjResult.failure s e ↔
      get_project roboticsData (str "robotics-0") = ProjResult.failure s e) ∧
    (∀ p, get_project roboticsData (str "robotics-0-extra") = ProjResult.success p →
      p.id = some (str "robotics-0-extra") ∧
      get_project roboticsData (str "robotics-0") =
        ProjResult.success { p with id := some (str "robotics-0") }) :=
  getProject_ignores_trailing_parts roboticsData (str "robotics-0-extra") (str "robotics-0")
    (str "robotics") (str "0") [str "extra"] [] (by decide) (by decide)

/-- C7 counterexample: a failed directory listing is propagated by
`load_cv_data` as an error, not absorbed into an empty mapping. -/
theorem load_cv_error_counterexample :
    load_cv_data (fun s => s) (Except.error (str "ENOENT")) (fun _ => Except.ok []) =
      Except.error (str "ENOENT") ∧
    (Except.error (str "ENOENT") : Except Str (List (Str × Str))) ≠ Except.ok [] := by
  refine ⟨rfl, ?_⟩
  simp

/-- C7 (amended): `load_cv_data` installs no handler, so a directory-read
failure propagates unchanged to the caller (and thus to the `/api/cv`
route, which does not handle it either). -/
theorem load_cv_data_propagates (markdownF : Str → Str) (readFile : Str → Except Str Str)
    (e : Str) : load_cv_data markdownF (Except.error e) readFile = Except.error e := rfl

